import Mathlib

/-!
Shallow embedding of the sctui progressive streaming audio pipeline
(internal/audio/buffered_player.go, internal/audio/buffer_reader.go and the
player UI component) together with theorems checking the specification
claims against it.

Byte offsets are modelled as natural numbers (Go int64 values that are
non-negative throughout this code), wall-clock instants and Go durations as
integers counted in nanoseconds, and the 4 MiB byte region as a function
from index to byte value (so that concrete buffers of full capacity stay
evaluable).
-/

namespace SCTUI

/-- Buffer capacity in bytes: 4 MiB (bufferSize in NewBufferedStreamPlayer). -/
def BUF_CAP : Nat := 4 * 1024 * 1024

/-- Preload threshold in bytes: 1 MiB (preloadSize in NewBufferedStreamPlayer). -/
def PRELOAD : Nat := 1024 * 1024

/-- Maximum download attempts (maxRetries in NewBufferedStreamPlayer). -/
def MAX_RETRIES : Nat := 5

/-- Base retry backoff in milliseconds (backoffDuration in NewBufferedStreamPlayer). -/
def BASE_BACKOFF_MS : Nat := 1000

/-- Poll interval of the buffer reader in milliseconds (the 100 ms sleep in Read). -/
def POLL_INTERVAL_MS : Nat := 100

/-- Maximum number of polls in BufferReader.Read (maxWait, 50 polls of 100 ms). -/
def maxWait : Nat := 50

/-- Reader blocking bound in milliseconds (READER_BLOCK_MAX, 5 s). -/
def READER_BLOCK_MAX_MS : Nat := 5000

/-- StreamBuffer (buffered_player.go): the byte region, its fixed capacity,
the read and write offsets, the preload and completion flags and the
preload threshold (minBuffer). -/
structure StreamBuffer where
  data : Nat → Nat
  size : Nat
  readPos : Nat
  writePos : Nat
  preloaded : Bool
  completed : Bool
  minBuffer : Nat

/-- StreamBuffer.write (buffered_player.go): returns unchanged when no space
is left, otherwise copies at most size - writePos input bytes into the byte
region at writePos, advances writePos by the number copied, and sets
preloaded once the new writePos reaches minBuffer. The Go function has no
return value; the number of bytes copied is observable as the writePos
advance. -/
def StreamBuffer.write (b : StreamBuffer) (src : List Nat) : StreamBuffer :=
  let availableSpace := b.size - b.writePos
  if availableSpace = 0 then b
  else
    let toWrite := if src.length > availableSpace then src.take availableSpace else src
    let data := fun i =>
      if b.writePos ≤ i ∧ i < b.writePos + toWrite.length then toWrite.getD (i - b.writePos) 0
      else b.data i
    let writePos := b.writePos + toWrite.length
    let preloaded := if ¬ b.preloaded ∧ b.minBuffer ≤ writePos then true else b.preloaded
    { b with data := data, writePos := writePos, preloaded := preloaded }

/-- StreamBuffer.isPreloaded (buffered_player.go). -/
def StreamBuffer.isPreloaded (b : StreamBuffer) : Bool := b.preloaded

/-- StreamBuffer.isHealthy (buffered_player.go): when completed any positive
amount ahead of readPos is healthy, otherwise more than minBuffer / 4 is
required. -/
def StreamBuffer.isHealthy (b : StreamBuffer) : Bool :=
  let available := b.writePos - b.readPos
  let healthThreshold := b.minBuffer / 4
  if b.completed then decide (0 < available) else decide (healthThreshold < available)

/-- BufferReader (buffer_reader.go): holds the shared stream buffer and its
own private read offset. -/
structure BufferReader where
  buffer : StreamBuffer
  position : Nat

/-- Result of one Read call: either EOF or the bytes copied with nil error. -/
inductive ReadResult where
  | eof
  | ok (bytes : List Nat)
deriving DecidableEq, Repr

/-- The copy step of BufferReader.Read: toCopy is the minimum of the
destination length and the available byte count, copied starting at the
reader position. -/
def readCopy (b : StreamBuffer) (pos lenP avail : Nat) : List Nat :=
  let toCopy := min lenP avail
  (List.range toCopy).map fun i => b.data (pos + i)

/-- The wait loop of BufferReader.Read (buffer_reader.go): polls the shared
buffer up to fuel more times, where polls i is the buffer state observed
after the i-th 100 ms sleep. Returns the observed state with its available
count when data appears, or none for the EOF outcomes (completed with
nothing available, or all polls exhausted). -/
def readAwait (pos : Nat) (polls : Nat → StreamBuffer) : Nat → Nat → Option (StreamBuffer × Nat)
  | _, 0 => none
  | i, fuel + 1 =>
    let b := polls i
    let avail := b.writePos - pos
    if avail = 0 then
      if b.completed then none
      else readAwait pos polls (i + 1) fuel
    else some (b, avail)

/-- BufferReader.Read (buffer_reader.go). The buffer is written concurrently
by the downloader, so polls i models the shared buffer state observed at
the i-th poll of the wait loop; bytes below writePos are immutable once
written, so the final copy is taken from the last observed state. The
returned BufferReader carries the advanced private position. -/
def BufferReader.read (br : BufferReader) (lenP : Nat) (polls : Nat → StreamBuffer) :
    ReadResult × BufferReader :=
  let b0 := br.buffer
  let available := b0.writePos - br.position
  if available = 0 then
    if b0.completed then (ReadResult.eof, br)
    else
      match readAwait br.position polls 0 maxWait with
      | none => (ReadResult.eof, br)
      | some bn =>
        let bytes := readCopy bn.1 br.position lenP bn.2
        (ReadResult.ok bytes, { buffer := bn.1, position := br.position + bytes.length })
  else
    let bytes := readCopy b0 br.position lenP available
    (ReadResult.ok bytes, { buffer := b0, position := br.position + bytes.length })

/-- BufferReader.Close (buffer_reader.go): always returns nil. -/
def BufferReader.close : Option Unit := none

/-- A write advances writePos by the minimum of the input length and the
remaining space. -/
theorem write_writePos (b : StreamBuffer) (src : List Nat) :
    (b.write src).writePos = b.writePos + min src.length (b.size - b.writePos) := by
  unfold StreamBuffer.write
  by_cases h : b.size - b.writePos = 0
  · simp [h]
  · by_cases h2 : src.length > b.size - b.writePos
    · simp [h, h2]
      omega
    · simp [h, h2]
      omega

/-- A write never changes the capacity of the byte region. -/
theorem write_size (b : StreamBuffer) (src : List Nat) : (b.write src).size = b.size := by
  unfold StreamBuffer.write
  by_cases h : b.size - b.writePos = 0 <;> simp [h]

/-- A write to a full buffer returns the buffer unchanged. -/
theorem write_full (b : StreamBuffer) (src : List Nat) (h : b.size ≤ b.writePos) :
    b.write src = b := by
  unfold StreamBuffer.write
  simp [Nat.sub_eq_zero_of_le h]

/-- A write keeps writePos within the capacity. -/
theorem write_writePos_le (b : StreamBuffer) (src : List Nat) (h : b.writePos ≤ b.size) :
    (b.write src).writePos ≤ b.size := by
  rw [write_writePos]
  omega

/-- The flag update step inside write as a boolean law. -/
theorem flag_or (p : Bool) (q : Prop) [Decidable q] :
    (if ¬ p = true ∧ q then true else p) = (p || decide q) := by
  cases p <;> by_cases hq : q <;> simp [hq]

/-- The preloaded flag after a write is the old flag joined with the preload
test on the new writePos, provided the flag was in sync with writePos
before and the threshold fits in the capacity. -/
theorem write_preloaded (b : StreamBuffer) (src : List Nat)
    (hpre : b.preloaded = false → b.writePos < b.minBuffer) :
    (b.write src).preloaded =
      (b.preloaded || decide (b.minBuffer ≤ (b.write src).writePos)) := by
  by_cases h : b.size - b.writePos = 0
  · have hfull : b.write src = b := write_full b src (by omega)
    rw [hfull]
    cases hp : b.preloaded with
    | true => simp
    | false =>
      have h1 := hpre hp
      have h2 : ¬ (b.minBuffer ≤ b.writePos) := by omega
      simp [h2]
  · unfold StreamBuffer.write
    simp only [h, if_false, ite_false]
    exact flag_or b.preloaded _

/-- C9: a write copies exactly min(len(bytes), BUF_CAP - write_pos) bytes,
in particular at most BUF_CAP - write_pos, observable as the write_pos
advance (the Go function returns no value); the byte region capacity is
unchanged, so nothing is allocated after construction; and the preloaded
flag is set exactly when write_pos reaches PRELOAD. -/
theorem C9_write_contract (b : StreamBuffer) (src : List Nat)
    (hsz : b.size = BUF_CAP) (hmb : b.minBuffer = PRELOAD)
    (hpre : b.preloaded = false → b.writePos < PRELOAD) :
    (b.write src).writePos - b.writePos = min src.length (BUF_CAP - b.writePos)
    ∧ (b.write src).writePos - b.writePos ≤ BUF_CAP - b.writePos
    ∧ (b.write src).size = BUF_CAP
    ∧ (b.write src).preloaded = (b.preloaded || decide (PRELOAD ≤ (b.write src).writePos)) := by
  have hw := write_writePos b src
  refine ⟨by rw [hw, hsz]; omega, by rw [hw, hsz]; omega, by rw [write_size, hsz], ?_⟩
  have hp := write_preloaded b src (by rw [hmb]; exact hpre)
  rw [hmb] at hp
  exact hp

/-- Concrete empty 4 MiB stream buffer used by witnesses. -/
def bufEmpty : StreamBuffer :=
  { data := fun _ => 0, size := BUF_CAP, readPos := 0, writePos := 0,
    preloaded := false, completed := false, minBuffer := PRELOAD }

/-- Witness for C9 at a concrete buffer and input. -/
theorem C9_write_contract_witness :
    (bufEmpty.write [1, 2, 3]).writePos - bufEmpty.writePos =
      min ([1, 2, 3] : List Nat).length (BUF_CAP - bufEmpty.writePos)
    ∧ (bufEmpty.write [1, 2, 3]).size = BUF_CAP
    ∧ (bufEmpty.write [1, 2, 3]).preloaded =
        (bufEmpty.preloaded || decide (PRELOAD ≤ (bufEmpty.write [1, 2, 3]).writePos)) := by
  have h := C9_write_contract bufEmpty [1, 2, 3] rfl rfl (fun _ => by decide)
  exact ⟨h.1, h.2.2.1, h.2.2.2⟩

/-- Concrete buffer holding ten unread bytes with value index + 1. -/
def bufTen : StreamBuffer :=
  { data := fun i => i + 1, size := BUF_CAP, readPos := 0, writePos := 10,
    preloaded := false, completed := false, minBuffer := PRELOAD }

/-- C3 counterexample: a read of 4 bytes from a buffer with 10 unread bytes
returns the bytes and advances the private reader position to 4, but the
buffer field read_pos stays 0: Read does not advance the buffer read_pos,
so is_healthy never sees read progress. -/
theorem C3_counterexample :
    ((BufferReader.read ⟨bufTen, 0⟩ 4 fun _ => bufTen).1 = ReadResult.ok [1, 2, 3, 4])
    ∧ (BufferReader.read ⟨bufTen, 0⟩ 4 fun _ => bufTen).2.position = 4
    ∧ (BufferReader.read ⟨bufTen, 0⟩ 4 fun _ => bufTen).2.buffer.readPos = 0
    ∧ ¬ ((BufferReader.read ⟨bufTen, 0⟩ 4 fun _ => bufTen).2.buffer.readPos =
          bufTen.readPos + 4) := by
  refine ⟨rfl, rfl, rfl, by decide⟩

/-- C3 amended: when write_pos exceeds the private reader position, Read
copies exactly min(len(dst), write_pos - position) bytes, returns them with
no error and advances the reader position by that count; the stream buffer
itself, including read_pos and hence the is_healthy verdict, is left
unchanged. -/
theorem C3_read_advances_reader_only (br : BufferReader) (lenP : Nat)
    (polls : Nat → StreamBuffer) (h : br.position < br.buffer.writePos) :
    (br.read lenP polls).1 =
      ReadResult.ok (readCopy br.buffer br.position lenP (br.buffer.writePos - br.position))
    ∧ (br.read lenP polls).2.position =
        br.position + min lenP (br.buffer.writePos - br.position)
    ∧ (br.read lenP polls).2.buffer = br.buffer
    ∧ (br.read lenP polls).2.buffer.readPos = br.buffer.readPos
    ∧ (br.read lenP polls).2.buffer.isHealthy = br.buffer.isHealthy := by
  have hne : ¬ (br.buffer.writePos - br.position = 0) := by omega
  unfold BufferReader.read
  simp [hne, readCopy]

/-- Witness for C3 amended at a concrete buffer and reader position. -/
theorem C3_read_advances_reader_only_witness :
    ((BufferReader.read ⟨bufTen, 4⟩ 3 fun _ => bufTen).1 = ReadResult.ok [5, 6, 7])
    ∧ (BufferReader.read ⟨bufTen, 4⟩ 3 fun _ => bufTen).2.buffer.readPos = bufTen.readPos := by
  have h := C3_read_advances_reader_only ⟨bufTen, 4⟩ 3 (fun _ => bufTen) (by decide)
  exact ⟨by rw [h.1]; rfl, h.2.2.2.1⟩

/-- The wait loop result depends only on the polls it can inspect. -/
theorem readAwait_congr (pos : Nat) (polls polls2 : Nat → StreamBuffer) :
    ∀ fuel i0, (∀ i, i0 ≤ i → i < i0 + fuel → polls2 i = polls i) →
      readAwait pos polls2 i0 fuel = readAwait pos polls i0 fuel := by
  intro fuel
  induction fuel with
  | zero => intro i0 _; rfl
  | succ n ih =>
    intro i0 h
    have h0 : polls2 i0 = polls i0 := h i0 (le_refl i0) (by omega)
    unfold readAwait
    rw [h0]
    by_cases ha : (polls i0).writePos - pos = 0
    · by_cases hc : (polls i0).completed
      · simp [ha, hc]
      · simp [ha, hc]
        exact ih (i0 + 1) (fun i hi1 hi2 => h i (by omega) (by omega))
    · simp [ha]

/-- The wait loop returns none when every inspected poll shows no new data. -/
theorem readAwait_none (pos : Nat) (polls : Nat → StreamBuffer) :
    ∀ fuel i0, (∀ i, i0 ≤ i → i < i0 + fuel → (polls i).writePos ≤ pos) →
      readAwait pos polls i0 fuel = none := by
  intro fuel
  induction fuel with
  | zero => intro i0 _; rfl
  | succ n ih =>
    intro i0 h
    have ha : (polls i0).writePos - pos = 0 :=
      Nat.sub_eq_zero_of_le (h i0 (le_refl i0) (by omega))
    unfold readAwait
    by_cases hc : (polls i0).completed
    · simp [ha, hc]
    · simp [ha, hc]
      exact ih (i0 + 1) (fun i h1 h2 => h i (by omega) (by omega))

/-- The wait loop returns the first poll showing data, when the polls before
it are quiet and uncompleted. -/
theorem readAwait_first_data (pos : Nat) (polls : Nat → StreamBuffer) :
    ∀ fuel i0 j, i0 ≤ j → j < i0 + fuel →
      (∀ i, i0 ≤ i → i < j → (polls i).writePos ≤ pos ∧ (polls i).completed = false) →
      pos < (polls j).writePos →
      readAwait pos polls i0 fuel = some (polls j, (polls j).writePos - pos) := by
  intro fuel
  induction fuel with
  | zero => intro i0 j h1 h2 _ _; exact absurd h2 (by omega)
  | succ n ih =>
    intro i0 j h1 h2 hq hd
    unfold readAwait
    rcases Nat.eq_or_lt_of_le h1 with he | hlt
    · subst he
      have ha : ¬ ((polls i0).writePos - pos = 0) := by omega
      simp [ha]
    · have hquiet := hq i0 (le_refl i0) hlt
      have ha : (polls i0).writePos - pos = 0 := Nat.sub_eq_zero_of_le hquiet.1
      simp [ha, hquiet.2]
      exact ih (i0 + 1) j hlt (by omega) (fun i hi1 hi2 => hq i (by omega) hi2) hd

/-- A read on an empty uncompleted buffer reduces to the wait loop outcome. -/
theorem read_eq_of_empty (br : BufferReader) (lenP : Nat) (polls : Nat → StreamBuffer)
    (h0 : br.buffer.writePos - br.position = 0) (hc : br.buffer.completed = false) :
    br.read lenP polls =
      match readAwait br.position polls 0 maxWait with
      | none => (ReadResult.eof, br)
      | some bn =>
        (ReadResult.ok (readCopy bn.1 br.position lenP bn.2),
         { buffer := bn.1,
           position := br.position + (readCopy bn.1 br.position lenP bn.2).length }) := by
  unfold BufferReader.read
  simp [h0, hc]

/-- C2: a read that finds no unread bytes on an uncompleted buffer waits at
most READER_BLOCK_MAX, polling every POLL_INTERVAL (50 polls of 100 ms):
the outcome depends only on the first 50 polls; if no poll shows new data
the read returns EOF instead of blocking indefinitely; and if data appears
at some poll after quiet uncompleted polls, the read returns those bytes
with no error. -/
theorem C2_reader_bounded_wait (br : BufferReader) (lenP : Nat)
    (polls : Nat → StreamBuffer)
    (h0 : br.buffer.writePos = br.position) (hc : br.buffer.completed = false) :
    maxWait * POLL_INTERVAL_MS = READER_BLOCK_MAX_MS
    ∧ (∀ polls2 : Nat → StreamBuffer, (∀ i, i < maxWait → polls2 i = polls i) →
        br.read lenP polls2 = br.read lenP polls)
    ∧ ((∀ i, i < maxWait → (polls i).writePos ≤ br.position) →
        br.read lenP polls = (ReadResult.eof, br))
    ∧ (∀ j, j < maxWait →
        (∀ i, i < j → (polls i).writePos ≤ br.position ∧ (polls i).completed = false) →
        br.position < (polls j).writePos →
        br.read lenP polls =
          (ReadResult.ok (readCopy (polls j) br.position lenP
              ((polls j).writePos - br.position)),
           { buffer := polls j,
             position := br.position + (readCopy (polls j) br.position lenP
               ((polls j).writePos - br.position)).length })) := by
  have ha : br.buffer.writePos - br.position = 0 := by omega
  refine ⟨by decide, ?_, ?_, ?_⟩
  · intro polls2 hp
    rw [read_eq_of_empty br lenP polls2 ha hc, read_eq_of_empty br lenP polls ha hc,
      readAwait_congr br.position polls polls2 maxWait 0 (fun i h1 h2 => hp i (by omega))]
  · intro hquiet
    rw [read_eq_of_empty br lenP polls ha hc,
      readAwait_none br.position polls maxWait 0 (fun i h1 h2 => hquiet i (by omega))]
  · intro j hj hq hd
    rw [read_eq_of_empty br lenP polls ha hc,
      readAwait_first_data br.position polls maxWait 0 j (Nat.zero_le j) (by omega)
        (fun i _ h2 => hq i h2) hd]

/-- Concrete buffer holding ten unread bytes of value 7, used by the C2
witness as the poll state where data has arrived. -/
def bufSeven : StreamBuffer :=
  { data := fun _ => 7, size := BUF_CAP, readPos := 0, writePos := 10,
    preloaded := false, completed := false, minBuffer := PRELOAD }

/-- Quiet poll sequence: the buffer stays empty. -/
def pollsQuiet : Nat → StreamBuffer := fun _ => bufEmpty

/-- Poll sequence where data is already visible at the first poll. -/
def pollsData : Nat → StreamBuffer := fun k => if k = 0 then bufSeven else bufEmpty

/-- Witness for C2: on an empty uncompleted buffer, all-quiet polls yield
EOF and a first poll with data yields those bytes. -/
theorem C2_reader_bounded_wait_witness :
    BufferReader.read ⟨bufEmpty, 0⟩ 4 pollsQuiet = (ReadResult.eof, ⟨bufEmpty, 0⟩)
    ∧ BufferReader.read ⟨bufEmpty, 0⟩ 4 pollsData =
        (ReadResult.ok [7, 7, 7, 7], { buffer := bufSeven, position := 4 }) := by
  have h := C2_reader_bounded_wait ⟨bufEmpty, 0⟩ 4 pollsQuiet rfl rfl
  have h2 := C2_reader_bounded_wait ⟨bufEmpty, 0⟩ 4 pollsData rfl rfl
  refine ⟨h.2.2.1 (fun i _ => Nat.le_refl 0), ?_⟩
  have h3 := h2.2.2.2 0 (by decide) (fun i hi => absurd hi (Nat.not_lt_zero i)) (by decide)
  rw [h3]
  rfl

/-- One result of resp.Body.Read in the download loop: bytes with nil error,
final bytes (possibly none) together with io.EOF, or a non-EOF read error
with no data. -/
inductive ReadEv where
  | data (bytes : List Nat)
  | dataEof (bytes : List Nat)
  | fail
deriving DecidableEq, Repr

/-- The chunk-read loop of downloadStreamAttempt (buffered_player.go): writes
each non-empty chunk into the buffer, resets the consecutive-error counter
on data, aborts after 3 consecutive read errors, and on io.EOF marks the
buffer completed and reports success. An exhausted event list stands for an
aborted response body and counts as failure. -/
def runBody : StreamBuffer → Nat → List ReadEv → StreamBuffer × Bool
  | b, _, [] => (b, false)
  | b, errs, ReadEv.data bytes :: rest =>
    if 0 < bytes.length then runBody (b.write bytes) 0 rest
    else runBody b errs rest
  | b, _, ReadEv.dataEof bytes :: _ =>
    let b1 := if 0 < bytes.length then b.write bytes else b
    ({ b1 with completed := true }, true)
  | b, errs, ReadEv.fail :: rest =>
    if 3 ≤ errs + 1 then (b, false)
    else runBody b (errs + 1) rest

/-- The read loop never changes the capacity of the byte region. -/
theorem runBody_size (evs : List ReadEv) :
    ∀ b errs, (runBody b errs evs).1.size = b.size := by
  induction evs with
  | nil => intro b errs; rfl
  | cons ev rest ih =>
    intro b errs
    cases ev with
    | data bytes =>
      by_cases hb : 0 < bytes.length
      · simp only [runBody, hb, if_true]
        rw [ih (b.write bytes) 0, write_size]
      · simp only [runBody, hb, if_false]
        exact ih b errs
    | dataEof bytes =>
      by_cases hb : 0 < bytes.length
      · simp only [runBody, hb, if_true]
        exact write_size b bytes
      · simp only [runBody, hb, if_false]
    | fail =>
      by_cases he : 3 ≤ errs + 1
      · simp only [runBody, he, if_true]
      · simp only [runBody, he, if_false]
        exact ih b (errs + 1)

/-- The read loop keeps writePos within the capacity. -/
theorem runBody_writePos_le (evs : List ReadEv) :
    ∀ b errs, b.writePos ≤ b.size → ((runBody b errs evs).1).writePos ≤ b.size := by
  induction evs with
  | nil => intro b errs h; exact h
  | cons ev rest ih =>
    intro b errs h
    cases ev with
    | data bytes =>
      by_cases hb : 0 < bytes.length
      · simp only [runBody, hb, if_true]
        have h1 := ih (b.write bytes) 0
          (by rw [write_size]; exact write_writePos_le b bytes h)
        rw [write_size] at h1
        exact h1
      · simp only [runBody, hb, if_false]
        exact ih b errs h
    | dataEof bytes =>
      by_cases hb : 0 < bytes.length
      · simp only [runBody, hb, if_true]
        exact write_writePos_le b bytes h
      · simp only [runBody, hb, if_false]
        exact h
    | fail =>
      by_cases he : 3 ≤ errs + 1
      · simp only [runBody, he, if_true]
        exact h
      · simp only [runBody, he, if_false]
        exact ih b (errs + 1) h

/-- A successful read loop has marked the buffer completed. -/
theorem runBody_completed (evs : List ReadEv) :
    ∀ b errs, (runBody b errs evs).2 = true → (runBody b errs evs).1.completed = true := by
  induction evs with
  | nil => intro b errs h; exact absurd h (by simp [runBody])
  | cons ev rest ih =>
    intro b errs
    cases ev with
    | data bytes =>
      by_cases hb : 0 < bytes.length
      · simp only [runBody, hb, if_true]
        exact ih (b.write bytes) 0
      · simp only [runBody, hb, if_false]
        exact ih b errs
    | dataEof bytes =>
      intro _
      by_cases hb : 0 < bytes.length <;> simp [runBody, hb]
    | fail =>
      by_cases he : 3 ≤ errs + 1
      · simp only [runBody, he, if_true]
        intro h
        exact absurd h (by simp)
      · simp only [runBody, he, if_false]
        exact ih b (errs + 1)

/-- On a full buffer the read loop discards every chunk and still succeeds
at EOF, leaving the buffer unchanged apart from the completed flag. -/
theorem runBody_full (b : StreamBuffer) (hfull : b.size ≤ b.writePos) :
    ∀ (chunks : List (List Nat)) (errs : Nat) (last : List Nat),
      runBody b errs (chunks.map ReadEv.data ++ [ReadEv.dataEof last]) =
        ({ b with completed := true }, true) := by
  intro chunks
  induction chunks with
  | nil =>
    intro errs last
    simp only [List.map_nil, List.nil_append, runBody]
    by_cases hb : 0 < last.length
    · simp [hb, write_full b last hfull]
    · simp [hb]
  | cons c cs ih =>
    intro errs last
    simp only [List.map_cons, List.cons_append, runBody]
    by_cases hb : 0 < c.length
    · simp only [hb, if_true, write_full b c hfull]
      exact ih 0 last
    · simp only [hb, if_false]
      exact ih errs last

/-- C10: write_pos never exceeds the capacity; a write to a full buffer
leaves write_pos and the stored bytes unchanged, silently discarding the
input; and on a full buffer the attempt keeps consuming the response and
still reports success at EOF with the buffer unchanged apart from the
completed flag — the tail of a stream longer than the capacity is lost
with no error surfaced. -/
theorem C10_capacity_tail_discard (b : StreamBuffer) (src : List Nat) (errs : Nat)
    (evs : List ReadEv) (hcap : b.writePos ≤ b.size) :
    (b.write src).writePos ≤ b.size
    ∧ ((runBody b errs evs).1).writePos ≤ b.size
    ∧ (b.size ≤ b.writePos → b.write src = b)
    ∧ (b.size ≤ b.writePos → ∀ (chunks : List (List Nat)) (last : List Nat),
        runBody b errs (chunks.map ReadEv.data ++ [ReadEv.dataEof last]) =
          ({ b with completed := true }, true)) := by
  exact ⟨write_writePos_le b src hcap, runBody_writePos_le evs b errs hcap,
    fun h => write_full b src h, fun h chunks last => runBody_full b h chunks errs last⟩

/-- Concrete full 4 MiB buffer used by the C10 witness. -/
def bufFull : StreamBuffer :=
  { data := fun _ => 9, size := BUF_CAP, readPos := 0, writePos := BUF_CAP,
    preloaded := true, completed := false, minBuffer := PRELOAD }

/-- Witness for C10 at a concrete full buffer. -/
theorem C10_capacity_tail_discard_witness :
    (bufFull.write [1, 2]).writePos ≤ BUF_CAP
    ∧ bufFull.write [1, 2] = bufFull
    ∧ runBody bufFull 0 [ReadEv.data [1, 2], ReadEv.dataEof []] =
        ({ bufFull with completed := true }, true) := by
  have h := C10_capacity_tail_discard bufFull [1, 2] 0
    [ReadEv.data [1, 2], ReadEv.dataEof []] (le_refl BUF_CAP)
  refine ⟨h.1, h.2.2.1 (le_refl BUF_CAP), ?_⟩
  have h4 := h.2.2.2 (le_refl BUF_CAP) [[1, 2]] []
  simpa using h4

/-- Environment of one download attempt: whether request construction or the
HTTP round trip fails, the response status, and the body read events. -/
structure AttemptEnv where
  reqErr : Bool
  respErr : Bool
  status : Nat
  body : List ReadEv
deriving DecidableEq, Repr

/-- Observable record of one attempt: backoff slept before it in
milliseconds, range header offset sent (none for no header), and the
attempt outcome. -/
structure AttemptRecord where
  sleepMs : Option Nat
  header : Option Nat
  ok : Bool
deriving DecidableEq, Repr

/-- downloadStreamAttempt (buffered_player.go): builds the request, sets
Range bytes=writePos- exactly when writePos is positive, rejects statuses
other than 200 and 206, then runs the body read loop. The middle component
is the header sent, kept for observability. -/
def downloadStreamAttempt (b : StreamBuffer) (env : AttemptEnv) :
    StreamBuffer × Option Nat × Bool :=
  if env.reqErr then (b, none, false)
  else
    let hdr := if 0 < b.writePos then some b.writePos else none
    if env.respErr then (b, hdr, false)
    else if env.status ≠ 200 ∧ env.status ≠ 206 then (b, hdr, false)
    else
      let r := runBody b 0 env.body
      (r.1, hdr, r.2)

/-- The retry loop of downloadStream (buffered_player.go): attempt index a
with fuel counting the remaining loop iterations, backoff of a times the
base before every attempt after the first; stops on success; publishes the
network error exactly when the last attempt (index MAX_RETRIES - 1) fails.
Returns the final buffer, one record per attempt made, and whether the
error was published. -/
def downloadLoop (envs : Nat → AttemptEnv) :
    Nat → Nat → StreamBuffer → StreamBuffer × List AttemptRecord × Bool
  | _, 0, b => (b, [], false)
  | a, fuel + 1, b =>
    let sleep : Option Nat := if 0 < a then some (a * BASE_BACKOFF_MS) else none
    let r := downloadStreamAttempt b (envs a)
    if r.2.2 then (r.1, [⟨sleep, r.2.1, true⟩], false)
    else
      let rest := downloadLoop envs (a + 1) fuel r.1
      (rest.1, ⟨sleep, r.2.1, false⟩ :: rest.2.1, rest.2.2 || decide (a = MAX_RETRIES - 1))

/-- downloadStream (buffered_player.go): the full retry loop from attempt 0
over MAX_RETRIES attempts. -/
def downloadStream (envs : Nat → AttemptEnv) (b : StreamBuffer) :
    StreamBuffer × List AttemptRecord × Bool :=
  downloadLoop envs 0 MAX_RETRIES b

/-- The retry loop makes at most fuel attempts. -/
theorem downloadLoop_length (envs : Nat → AttemptEnv) :
    ∀ fuel a b, (downloadLoop envs a fuel b).2.1.length ≤ fuel := by
  intro fuel
  induction fuel with
  | zero => intro a b; simp [downloadLoop]
  | succ n ih =>
    intro a b
    unfold downloadLoop
    by_cases hr : (downloadStreamAttempt b (envs a)).2.2
    · simp [hr]
    · simp [hr]
      have := ih (a + 1) (downloadStreamAttempt b (envs a)).1
      omega

/-- The i-th attempt of the retry loop slept (a + i) times the base backoff,
and nothing when a + i = 0. -/
theorem downloadLoop_sleeps (envs : Nat → AttemptEnv) :
    ∀ fuel a b i, i < (downloadLoop envs a fuel b).2.1.length →
      ((downloadLoop envs a fuel b).2.1.getD i ⟨none, none, false⟩).sleepMs =
        if a + i = 0 then none else some ((a + i) * BASE_BACKOFF_MS) := by
  intro fuel
  induction fuel with
  | zero => intro a b i h; simp [downloadLoop] at h
  | succ n ih =>
    intro a b i h
    unfold downloadLoop at h ⊢
    by_cases hr : (downloadStreamAttempt b (envs a)).2.2
    · simp [hr] at h
      have hi : i = 0 := by omega
      subst hi
      simp only [hr, if_true, List.getD_cons_zero]
      cases a with
      | zero => simp
      | succ m => simp
    · simp [hr] at h
      cases i with
      | zero =>
        simp only [hr, Bool.false_eq_true, if_false, List.getD_cons_zero]
        cases a with
        | zero => simp
        | succ m => simp
      | succ k =>
        have hk : k < (downloadLoop envs (a + 1) n
            (downloadStreamAttempt b (envs a)).1).2.1.length := by omega
        have hrec := ih (a + 1) (downloadStreamAttempt b (envs a)).1 k hk
        simp only [hr, Bool.false_eq_true, if_false, List.getD_cons_succ]
        rw [hrec]
        have harith : a + 1 + k = a + (k + 1) := by omega
        rw [harith]

/-- If the retry loop published the error, every attempt it made failed and
it used all its fuel, provided the loop parameters are consistent. -/
theorem downloadLoop_pub_sound (envs : Nat → AttemptEnv) :
    ∀ fuel a b, a + fuel = MAX_RETRIES →
      (downloadLoop envs a fuel b).2.2 = true →
      (downloadLoop envs a fuel b).2.1.length = fuel
        ∧ ∀ r ∈ (downloadLoop envs a fuel b).2.1, r.ok = false := by
  intro fuel
  induction fuel with
  | zero => intro a b _ h; simp [downloadLoop] at h
  | succ n ih =>
    intro a b ha h
    unfold downloadLoop at h ⊢
    by_cases hr : (downloadStreamAttempt b (envs a)).2.2
    · simp [hr] at h
    · simp only [hr, Bool.false_eq_true, if_neg, not_false_iff, Bool.or_eq_true,
        decide_eq_true_eq] at h
      simp only [hr, Bool.false_eq_true, if_neg, not_false_iff, List.length_cons,
        List.mem_cons]
      rcases h with hrest | hlast
      · have := ih (a + 1) (downloadStreamAttempt b (envs a)).1 (by omega) hrest
        refine ⟨by omega, ?_⟩
        rintro r (rfl | hm)
        · rfl
        · exact this.2 r hm
      · have hn : n = 0 := by
          have : a = MAX_RETRIES - 1 := hlast
          omega
        subst hn
        refine ⟨by simp [downloadLoop], ?_⟩
        rintro r (rfl | hm)
        · rfl
        · simp [downloadLoop] at hm

/-- If the retry loop used all its fuel and every attempt failed, the error
was published, provided the loop parameters are consistent. -/
theorem downloadLoop_pub_complete (envs : Nat → AttemptEnv) :
    ∀ fuel a b, a + fuel = MAX_RETRIES → 0 < fuel →
      (downloadLoop envs a fuel b).2.1.length = fuel →
      (∀ r ∈ (downloadLoop envs a fuel b).2.1, r.ok = false) →
      (downloadLoop envs a fuel b).2.2 = true := by
  intro fuel
  induction fuel with
  | zero => intro a b _ h0; exact absurd h0 (lt_irrefl 0)
  | succ n ih =>
    intro a b ha _ hlen hall
    unfold downloadLoop at hlen hall ⊢
    by_cases hr : (downloadStreamAttempt b (envs a)).2.2
    · exfalso
      simp only [hr, if_true, List.mem_singleton] at hall
      have := hall _ rfl
      simp at this
    · simp only [hr, Bool.false_eq_true, if_neg, not_false_iff, List.length_cons] at hlen
      simp only [hr, Bool.false_eq_true, if_neg, not_false_iff, List.mem_cons] at hall
      simp only [hr, Bool.false_eq_true, if_neg, not_false_iff, Bool.or_eq_true,
        decide_eq_true_eq]
      cases n with
      | zero => right; omega
      | succ m =>
        left
        exact ih (a + 1) (downloadStreamAttempt b (envs a)).1 (by omega) (by omega)
          (by omega) (fun r hm => hall r (Or.inr hm))

/-- C5: the downloader makes at most MAX_RETRIES attempts, sleeping attempt
times BASE_BACKOFF before each retry and nothing before the first attempt;
an attempt sends Range bytes=write_pos- exactly when write_pos is
positive; any status other than 200 or 206 fails the attempt; a successful
attempt has marked the buffer completed (EOF); and the network error is
published exactly when all MAX_RETRIES attempts were made and all failed. -/
theorem C5_download_retry (envs : Nat → AttemptEnv) (b : StreamBuffer) :
    (downloadStream envs b).2.1.length ≤ MAX_RETRIES
    ∧ (∀ i, i < (downloadStream envs b).2.1.length →
        ((downloadStream envs b).2.1.getD i ⟨none, none, false⟩).sleepMs =
          if i = 0 then none else some (i * BASE_BACKOFF_MS))
    ∧ (∀ bb env, env.reqErr = false →
        (downloadStreamAttempt bb env).2.1 =
          if 0 < bb.writePos then some bb.writePos else none)
    ∧ (∀ bb env, env.status ≠ 200 → env.status ≠ 206 →
        (downloadStreamAttempt bb env).2.2 = false)
    ∧ (∀ bb env, (downloadStreamAttempt bb env).2.2 = true →
        (downloadStreamAttempt bb env).1.completed = true)
    ∧ ((downloadStream envs b).2.2 = true ↔
        (downloadStream envs b).2.1.length = MAX_RETRIES
          ∧ ∀ r ∈ (downloadStream envs b).2.1, r.ok = false) := by
  refine ⟨downloadLoop_length envs MAX_RETRIES 0 b, ?_, ?_, ?_, ?_, ?_⟩
  · intro i h
    have := downloadLoop_sleeps envs MAX_RETRIES 0 b i h
    simpa using this
  · intro bb env hreq
    unfold downloadStreamAttempt
    simp only [hreq, Bool.false_eq_true, if_neg, not_false_iff]
    by_cases hresp : env.respErr
    · simp [hresp]
    · by_cases hst : env.status ≠ 200 ∧ env.status ≠ 206
      · simp [hresp, hst]
      · simp [hresp, hst]
  · intro bb env h200 h206
    unfold downloadStreamAttempt
    by_cases hreq : env.reqErr
    · simp [hreq]
    · by_cases hresp : env.respErr
      · simp [hreq, hresp]
      · simp [hreq, hresp, h200, h206]
  · intro bb env h
    unfold downloadStreamAttempt at h ⊢
    by_cases hreq : env.reqErr
    · simp [hreq] at h
    · by_cases hresp : env.respErr
      · simp [hreq, hresp] at h
      · by_cases hst : env.status ≠ 200 ∧ env.status ≠ 206
        · simp [hreq, hresp, hst] at h
        · simp only [hreq, hresp, hst, Bool.false_eq_true, if_neg, not_false_iff,
            if_false] at h ⊢
          exact runBody_completed env.body bb 0 h
  · constructor
    · intro h
      exact downloadLoop_pub_sound envs MAX_RETRIES 0 b rfl h
    · intro h
      exact downloadLoop_pub_complete envs MAX_RETRIES 0 b rfl (by decide) h.1 h.2

/-- Attempt environments that always fail with status 404. -/
def envsFail : Nat → AttemptEnv := fun _ => ⟨false, false, 404, []⟩

/-- Attempt environment that succeeds immediately with an empty 200 body. -/
def envOk : AttemptEnv := ⟨false, false, 200, [ReadEv.dataEof []]⟩

/-- Witness for C5 at concrete environments and buffers. -/
theorem C5_download_retry_witness :
    (downloadStream envsFail bufEmpty).2.1.length ≤ MAX_RETRIES
    ∧ (downloadStreamAttempt bufTen (envsFail 0)).2.1 = some 10
    ∧ (downloadStreamAttempt bufEmpty (envsFail 0)).2.2 = false
    ∧ (downloadStreamAttempt bufEmpty envOk).1.completed = true
    ∧ (downloadStream envsFail bufEmpty).2.2 = true := by
  have h := C5_download_retry envsFail bufEmpty
  refine ⟨h.1, ?_, ?_, ?_, ?_⟩
  · have h3 := h.2.2.1 bufTen (envsFail 0) rfl
    rw [h3]
    rfl
  · exact h.2.2.2.1 bufEmpty (envsFail 0) (by decide) (by decide)
  · exact h.2.2.2.2.1 bufEmpty envOk (by decide)
  · exact h.2.2.2.2.2.mpr (by decide)

/-- PositionTracker (buffered_player.go): start instant (none models the Go
zero time), pause instant, accumulated paused time, last reported position
and the session sample rate. Instants and durations are integers counted
in nanoseconds. -/
structure PositionTracker where
  startTime : Option Int
  pausedTime : Option Int
  totalPaused : Int
  lastPosition : Int
  sampleRate : Nat
deriving DecidableEq, Repr

/-- PositionTracker.Start (buffered_player.go). -/
def PositionTracker.start (t : PositionTracker) (now : Int) (sr : Nat) : PositionTracker :=
  { t with startTime := some now, sampleRate := sr, totalPaused := 0 }

/-- PositionTracker.Stop (buffered_player.go): clears the start instant
only, so lastPosition is preserved. -/
def PositionTracker.stop (t : PositionTracker) : PositionTracker :=
  { t with startTime := none }

/-- PositionTracker.Pause (buffered_player.go). -/
def PositionTracker.pause (t : PositionTracker) (now : Int) : PositionTracker :=
  { t with pausedTime := some now }

/-- PositionTracker.Resume (buffered_player.go). -/
def PositionTracker.resume (t : PositionTracker) (now : Int) : PositionTracker :=
  match t.pausedTime with
  | some pt => { t with totalPaused := t.totalPaused + (now - pt), pausedTime := none }
  | none => t

/-- PositionTracker.Update (buffered_player.go): recomputes lastPosition as
the wall-clock time since start minus accumulated and in-flight paused
time; a no-op when the tracker is stopped. -/
def PositionTracker.update (t : PositionTracker) (now : Int) : PositionTracker :=
  match t.startTime with
  | none => t
  | some st =>
    let elapsed := (now - st) - t.totalPaused
    let elapsed2 :=
      match t.pausedTime with
      | some pt => elapsed - (now - pt)
      | none => elapsed
    { t with lastPosition := elapsed2 }

/-- PositionTracker.GetPosition (buffered_player.go). -/
def PositionTracker.getPosition (t : PositionTracker) : Int := t.lastPosition

/-- PositionTracker.SetPosition (buffered_player.go), called by Seek: stores
the target and restarts the wall clock at the call instant. -/
def PositionTracker.setPosition (t : PositionTracker) (pos now : Int) : PositionTracker :=
  { t with lastPosition := pos, startTime := some now, totalPaused := 0, pausedTime := none }

/-- BufferedStreamPlayer.GetPosition (buffered_player.go): returns the
tracker position whenever a tracker is present; only with no tracker does
it fall back to the decoder frame counter scaled by the sample rate (both
in nanoseconds, mirroring SampleRate.D). -/
def getPosition (trackerPresent : Bool) (t : PositionTracker)
    (streamerPresent : Bool) (streamerPos : Nat) (sampleRate : Nat) : Int :=
  if trackerPresent then t.getPosition
  else if streamerPresent = false ∨ sampleRate = 0 then 0
  else ((streamerPos * 1000000000 / sampleRate : Nat) : Int)

/-- NewBufferedStreamPlayer (buffered_player.go) always constructs a
position tracker, so the tracker is present for the life of the player. -/
def newPlayerTrackerPresent : Bool := true

/-- Modelled from the spec: the claimed position selection of C6 — prefer
the decoder frame counter divided by the sample rate, and use the wall
clock only when the decoder counter is unavailable or has not advanced for
more than 1 s while playing. No code in src implements this tie-break. -/
def specPositionSelection (decoderAvailable stalledOver1s : Bool)
    (decoderPosNs wallClockNs : Int) : Int :=
  if decoderAvailable ∧ ¬ stalledOver1s then decoderPosNs else wallClockNs

/-- Concrete tracker whose wall-clock position is 5 s. -/
def trackerFive : PositionTracker :=
  { startTime := some 0, pausedTime := none, totalPaused := 0,
    lastPosition := 5000000000, sampleRate := 44100 }

/-- C6 counterexample: with the tracker present, as it always is after
construction, an available and un-stalled decoder counter of 441000 frames
at 44100 Hz (10 s) is ignored: GetPosition returns the wall-clock 5 s
while the claimed selection returns the decoder 10 s. -/
theorem C6_counterexample :
    getPosition newPlayerTrackerPresent trackerFive true 441000 44100 = 5000000000
    ∧ specPositionSelection true false ((441000 * 1000000000 / 44100 : Nat) : Int)
        5000000000 = 10000000000
    ∧ getPosition newPlayerTrackerPresent trackerFive true 441000 44100 ≠
        specPositionSelection true false ((441000 * 1000000000 / 44100 : Nat) : Int)
          5000000000 := by
  refine ⟨rfl, by decide, by decide⟩

/-- C6 amended: GetPosition returns the wall-clock tracker position whenever
the tracker is present — which is always, since the constructor installs
one — regardless of the decoder counter; the decoder frame counter scaled
by the sample rate is consulted only when no tracker exists, and no
1-second stall tie-break exists anywhere. -/
theorem C6_position_prefers_tracker (t : PositionTracker) (sp : Bool) (n sr : Nat) :
    getPosition newPlayerTrackerPresent t sp n sr = t.lastPosition
    ∧ (sr ≠ 0 → getPosition false t true n sr = ((n * 1000000000 / sr : Nat) : Int)) := by
  constructor
  · rfl
  · intro h
    unfold getPosition
    simp [h]

/-- Witness for C6 amended at a concrete tracker and decoder counter. -/
theorem C6_position_prefers_tracker_witness :
    getPosition newPlayerTrackerPresent trackerFive true 441000 44100 =
      trackerFive.lastPosition
    ∧ getPosition false trackerFive true 441000 44100 =
        ((441000 * 1000000000 / 44100 : Nat) : Int) := by
  have h := C6_position_prefers_tracker trackerFive true 441000 44100
  exact ⟨h.1, h.2 (by decide)⟩

/-- Seek-relevant player state: loaded streamer, its sample rate, and the
track duration in nanoseconds. -/
structure SeekState where
  streamerPresent : Bool
  sampleRate : Nat
  durationNs : Int
deriving DecidableEq, Repr

/-- Errors of BufferedStreamPlayer.Seek. -/
inductive SeekErr where
  | negative
  | noStream
  | pastEnd
deriving DecidableEq, Repr

/-- BufferedStreamPlayer.Seek (buffered_player.go): rejects negative
positions, requires a loaded streamer, rejects positions past the
duration, then seeks the decoder and stores the target in the tracker via
SetPosition at the current instant. -/
def playerSeek (s : SeekState) (t : PositionTracker) (pos now : Int) :
    PositionTracker × Option SeekErr :=
  if pos < 0 then (t, some SeekErr.negative)
  else if s.streamerPresent = false then (t, some SeekErr.noStream)
  else if s.durationNs < pos then (t, some SeekErr.pastEnd)
  else (t.setPosition pos now, none)

/-- One output device period in nanoseconds: speaker.Init is called with
sample_rate / 10 samples, i.e. 100 ms. -/
def PERIOD_NS : Int := 100000000

/-- Concrete tracker started at instant 0. -/
def trackerZero : PositionTracker :=
  { startTime := some 0, pausedTime := none, totalPaused := 0,
    lastPosition := 0, sampleRate := 44100 }

/-- C7: the code loses the seek target. Seeking to 30 s on a 120 s track
succeeds and the tracker immediately reports 30 s, but the periodic Update
100 ms later overwrites lastPosition with the wall-clock time elapsed
since the seek (0.1 s), which is not within one device period of 30 s. -/
theorem C7_seek_position_lost :
    (playerSeek ⟨true, 44100, 120000000000⟩ trackerZero 30000000000 50000000000).2 = none
    ∧ (playerSeek ⟨true, 44100, 120000000000⟩ trackerZero 30000000000
        50000000000).1.lastPosition = 30000000000
    ∧ ((playerSeek ⟨true, 44100, 120000000000⟩ trackerZero 30000000000
        50000000000).1.update 50100000000).lastPosition = 100000000
    ∧ ¬ (|((playerSeek ⟨true, 44100, 120000000000⟩ trackerZero 30000000000
          50000000000).1.update 50100000000).lastPosition - 30000000000| < PERIOD_NS) := by
  refine ⟨rfl, rfl, rfl, by decide⟩

/-- PlayerState (player.go): the audio player states. -/
inductive PlayerState where
  | stopped
  | playing
  | paused
deriving DecidableEq, Repr

/-- The lifecycle fields of BufferedStreamPlayer touched by stopLocked and
Close (buffered_player.go): presence flags for ctrl, buffer and streamer,
the ctrl pause bit, the buffer cancellation bit, whether a stream URL is
set, whether the tracker is started, and whether idle HTTP connections
were released. -/
structure PlayerM where
  state : PlayerState
  ctrlPresent : Bool
  ctrlPaused : Bool
  bufferPresent : Bool
  bufferCancelled : Bool
  streamerPresent : Bool
  urlSet : Bool
  trackerStarted : Bool
  idleConnsReleased : Bool
deriving DecidableEq, Repr

/-- stopLocked (buffered_player.go): pauses the ctrl, cancels the buffer
download, closes the streamer — the session streamer closes the
BufferReader, whose Close always returns nil, and a close error would be
returned here — stops the tracker, clears the session fields and sets the
state to Stopped. -/
def stopLocked (p : PlayerM) : PlayerM × Option Unit :=
  let p1 := if p.ctrlPresent then { p with ctrlPaused := true } else p
  let p2 := if p1.bufferPresent then { p1 with bufferCancelled := true } else p1
  match (if p2.streamerPresent then BufferReader.close else none) with
  | some e => (p2, some e)
  | none =>
    ({ p2 with
        streamerPresent := false
        trackerStarted := false
        ctrlPresent := false
        urlSet := false
        state := PlayerState.stopped }, none)

/-- Close (buffered_player.go): stopLocked, then releases cached idle HTTP
connections. -/
def closePlayer (p : PlayerM) : PlayerM × Option Unit :=
  match stopLocked p with
  | (p1, some e) => (p1, some e)
  | (p1, none) => ({ p1 with idleConnsReleased := true }, none)

/-- C8: stop never returns an error in any state, leaves the state Stopped,
is idempotent — a second stop returns the same state with the same nil
outcome — and close after stop changes nothing except releasing the cached
idle HTTP connections. -/
theorem C8_stop_idempotent_close_noop (p : PlayerM) :
    (stopLocked p).2 = none
    ∧ (stopLocked p).1.state = PlayerState.stopped
    ∧ stopLocked (stopLocked p).1 = ((stopLocked p).1, none)
    ∧ closePlayer (stopLocked p).1 =
        ({ (stopLocked p).1 with idleConnsReleased := true }, none) := by
  obtain ⟨st, cp, cpd, bp, bc, sp, us, ts, icr⟩ := p
  cases cp <;> cases bp <;> cases sp <;>
    simp [stopLocked, closePlayer, BufferReader.close]

/-- The once-state of the speaker singleton: whether speaker.Init has run
and whether the recorded outcome was a failure. -/
structure SpeakerOnce where
  done : Bool
  initErr : Bool
deriving DecidableEq, Repr

/-- Error kinds surfaced by Play before and at speaker initialisation. -/
inductive PlayErrKind where
  | input
  | timeout
  | decode
  | audio
deriving DecidableEq, Repr

/-- Environment of one Play call: empty URL, preload outcome, decode
outcome, and what speaker.Init would return if it were invoked now. -/
structure PlayEnv where
  urlEmpty : Bool
  preloadOk : Bool
  decodeOk : Bool
  initFails : Bool
deriving DecidableEq, Repr

/-- The speakerInit sync.Once step in Play (buffered_player.go): runs
speaker.Init only if it has never run, recording its outcome. Returns the
new once-state and whether Init actually ran. -/
def speakerInitDo (s : SpeakerOnce) (initFails : Bool) : SpeakerOnce × Bool :=
  if s.done then (s, false) else ({ done := true, initErr := initFails }, true)

/-- Play (buffered_player.go) restricted to the stages around speaker
initialisation: URL validation, preload wait and decode can each fail
first; then the sync.Once init runs at most once and the recorded error is
checked. Returns the once-state, whether Init ran, and the error kind. -/
def playOnce (s : SpeakerOnce) (env : PlayEnv) : SpeakerOnce × Bool × Option PlayErrKind :=
  if env.urlEmpty then (s, false, some PlayErrKind.input)
  else if env.preloadOk = false then (s, false, some PlayErrKind.timeout)
  else if env.decodeOk = false then (s, false, some PlayErrKind.decode)
  else
    let r := speakerInitDo s env.initFails
    if r.1.initErr then (r.1, r.2, some PlayErrKind.audio)
    else (r.1, r.2, none)

/-- A sequence of Play calls, counting the total speaker.Init invocations. -/
def playSeq (s : SpeakerOnce) : List PlayEnv → SpeakerOnce × Nat
  | [] => (s, 0)
  | env :: rest =>
    let r := playOnce s env
    let rr := playSeq r.1 rest
    (rr.1, (if r.2.1 then 1 else 0) + rr.2)

/-- Across any sequence of plays, Init runs at most once, and never again
once the once-state is done. -/
theorem playSeq_init_le (envs : List PlayEnv) :
    ∀ s, (playSeq s envs).2 ≤ if s.done then 0 else 1 := by
  induction envs with
  | nil => intro s; simp [playSeq]
  | cons env rest ih =>
    intro s
    unfold playSeq playOnce speakerInitDo
    by_cases hu : env.urlEmpty
    · simpa [hu] using ih s
    · by_cases hp : env.preloadOk = false
      · simpa [hu, hp] using ih s
      · by_cases hdec : env.decodeOk = false
        · simpa [hu, hp, hdec] using ih s
        · cases hd : s.done with
          | true =>
            by_cases he : s.initErr <;>
              simpa [hu, hp, hdec, hd, he] using ih s
          | false =>
            have hrest := ih (⟨true, env.initFails⟩ : SpeakerOnce)
            by_cases he : env.initFails <;>
              · simp [hu, hp, hdec, hd, he] at hrest ⊢
                omega

/-- C4 counterexample: with a latched init failure, a subsequent play with
an empty URL fails with the Input kind, not the Audio kind — so not every
subsequent play fails with an Audio-kind error. -/
theorem C4_counterexample :
    (playOnce ⟨true, true⟩ ⟨true, true, true, false⟩).2.2 = some PlayErrKind.input
    ∧ some PlayErrKind.input ≠ some PlayErrKind.audio := by
  exact ⟨rfl, by decide⟩

/-- C4 amended: for any sequence of plays the speaker initialisation runs at
most once; and once the single initialisation has failed, every subsequent
play that passes the earlier stages (non-empty URL, preload and decode
succeed) fails with the Audio kind without re-running Init — plays can
still fail earlier with other kinds. -/
theorem C4_speaker_init_once (s : SpeakerOnce) (envs : List PlayEnv) (env : PlayEnv) :
    ((playSeq s envs).2 ≤ if s.done then 0 else 1)
    ∧ (s.done = true → s.initErr = true → env.urlEmpty = false →
        env.preloadOk = true → env.decodeOk = true →
        playOnce s env = (s, false, some PlayErrKind.audio)) := by
  refine ⟨playSeq_init_le envs s, ?_⟩
  intro hd he hu hp hdec
  unfold playOnce speakerInitDo
  simp [hu, hp, hdec, hd, he]

/-- Witness for C4 amended: two successful plays run Init once in total, and
a play on a latched failure reports the Audio kind without re-running
Init. -/
theorem C4_speaker_init_once_witness :
    (playSeq ⟨false, false⟩ [⟨false, true, true, false⟩, ⟨false, true, true, false⟩]).2 ≤ 1
    ∧ playOnce ⟨true, true⟩ ⟨false, true, true, false⟩ =
        (⟨true, true⟩, false, some PlayErrKind.audio) := by
  have h := C4_speaker_init_once ⟨false, false⟩
    [⟨false, true, true, false⟩, ⟨false, true, true, false⟩] ⟨false, true, true, false⟩
  have h2 := C4_speaker_init_once ⟨true, true⟩ [] ⟨false, true, true, false⟩
  exact ⟨by simpa using h.1, h2.2 rfl rfl rfl rfl rfl⟩

/-- State (player UI component): the component states. -/
inductive State where
  | idle
  | loading
  | playing
  | paused
  | completed
  | error
deriving DecidableEq, Repr

/-- The player UI component fields used by state synchronisation: its state,
whether a track is loaded, the track duration in milliseconds from the
metadata, the last observed position in nanoseconds, and the
premature-stop detection flag. -/
structure PlayerComponent where
  state : State
  hasTrack : Bool
  trackDurationMs : Int
  positionNs : Int
  prematureStopDetected : Bool
deriving DecidableEq, Repr

/-- Observable output of the component: the premature-stop debug log line
carrying the position and the expected duration. -/
inductive UiEmission where
  | debugPrematureLog (positionNs expectedNs : Int)
deriving DecidableEq, Repr

/-- syncStateWithAudioPlayer (player UI component): mirrors the audio state
into the component; on audio Stopped while the component is Playing or
Paused with a track, marks completion near the end (2 s tolerance, or
unknown duration); otherwise logs the premature stop once, sets the
detection flag, and deliberately leaves the component state unchanged,
waiting for user input. -/
def syncStateWithAudioPlayer (p : PlayerComponent) (audioState : PlayerState) :
    PlayerComponent × List UiEmission :=
  match audioState with
  | PlayerState.playing =>
    if p.state ≠ State.playing ∧ p.state ≠ State.loading then
      ({ p with state := State.playing, prematureStopDetected := false }, [])
    else (p, [])
  | PlayerState.paused =>
    if p.state = State.playing then ({ p with state := State.paused }, []) else (p, [])
  | PlayerState.stopped =>
    if p.state = State.playing ∨ p.state = State.paused then
      if p.hasTrack then
        if p.trackDurationMs * 1000000 - 2000000000 ≤ p.positionNs
            ∨ p.trackDurationMs * 1000000 = 0 then
          ({ p with state := State.completed }, [])
        else if ¬ p.prematureStopDetected then
          ({ p with prematureStopDetected := true },
           [UiEmission.debugPrematureLog p.positionNs (p.trackDurationMs * 1000000)])
        else (p, [])
      else ({ p with state := State.idle }, [])
    else (p, [])

/-- Commands the component issues from togglePlayPause. -/
inductive ToggleCmd where
  | pauseCmd
  | resumeCmd
  | replayFromStart
  | restartWithSeek (savedPositionNs : Int)
  | noCmd
deriving DecidableEq, Repr

/-- togglePlayPause (player UI component): pauses or resumes a running
player; when the audio player is Stopped with a track loaded, either
replays from the beginning when near the end (2 s tolerance, or unknown
duration) or — the premature-stop case — restarts the stream and seeks
back to the preserved position. -/
def togglePlayPause (p : PlayerComponent) (audioState : PlayerState) :
    PlayerComponent × ToggleCmd :=
  match audioState with
  | PlayerState.playing => (p, ToggleCmd.pauseCmd)
  | PlayerState.paused => (p, ToggleCmd.resumeCmd)
  | PlayerState.stopped =>
    if p.hasTrack then
      if p.trackDurationMs * 1000000 - 2000000000 ≤ p.positionNs
          ∨ p.trackDurationMs * 1000000 = 0 then
        ({ p with state := State.loading }, ToggleCmd.replayFromStart)
      else
        ({ p with state := State.loading }, ToggleCmd.restartWithSeek p.positionNs)
    else (p, ToggleCmd.noCmd)

/-- The end-of-playback callback passed to speaker.Play in Play
(buffered_player.go): sets the player state to Stopped and stops the
tracker, which preserves lastPosition. -/
def onPlaybackDone (t : PositionTracker) : PlayerState × PositionTracker :=
  (PlayerState.stopped, t.stop)

/-- Modelled from the spec: the claimed observable reaction of C1 to a
premature end-of-stream — the component reflects a transition out of its
running states, the play being observed as stopped, alongside an
on_premature_stop signal. No code registering an on_premature_stop
callback exists in src; this predicate captures the component-state part
of the claimed behaviour. -/
def specPrematureReaction (res : PlayerComponent × List UiEmission) : Prop :=
  res.1.state ≠ State.playing ∧ res.1.state ≠ State.paused

/-- Concrete component: playing a 120 s track at position 30 s. -/
def compPremature : PlayerComponent :=
  { state := State.playing, hasTrack := true, trackDurationMs := 120000,
    positionNs := 30000000000, prematureStopDetected := false }

/-- C1 counterexample: on decoder EOF 90 s before the expected duration the
component stays in Playing and emits only a debug log line — the claimed
transition to Stopped with an on_premature_stop signal does not happen. -/
theorem C1_counterexample :
    (syncStateWithAudioPlayer compPremature PlayerState.stopped).1.state = State.playing
    ∧ (syncStateWithAudioPlayer compPremature PlayerState.stopped).2 =
        [UiEmission.debugPrematureLog 30000000000 120000000000]
    ∧ ¬ specPrematureReaction (syncStateWithAudioPlayer compPremature PlayerState.stopped) := by
  refine ⟨by decide, by decide, ?_⟩
  intro hspec
  exact hspec.1 (by decide)

/-- C1 amended: there is no on_premature_stop callback. On decoder EOF the
audio core transitions to Stopped and the tracker preserves lastPosition;
the component, seeing audio Stopped while running with a track whose
expected duration is more than 2 s ahead, logs the premature stop once
with the preserved position, sets only the detection flag and leaves its
own state unchanged; the restart — a new play followed by a seek to the
preserved position — is issued only by togglePlayPause, that is, on an
explicit user toggle. -/
theorem C1_premature_stop_behaviour (p : PlayerComponent) (t : PositionTracker)
    (hrun : p.state = State.playing ∨ p.state = State.paused)
    (htrack : p.hasTrack = true)
    (hprem : ¬ (p.trackDurationMs * 1000000 - 2000000000 ≤ p.positionNs
        ∨ p.trackDurationMs * 1000000 = 0)) :
    (p.prematureStopDetected = false →
      syncStateWithAudioPlayer p PlayerState.stopped =
        ({ p with prematureStopDetected := true },
         [UiEmission.debugPrematureLog p.positionNs (p.trackDurationMs * 1000000)]))
    ∧ (p.prematureStopDetected = true →
        syncStateWithAudioPlayer p PlayerState.stopped = (p, []))
    ∧ togglePlayPause p PlayerState.stopped =
        ({ p with state := State.loading }, ToggleCmd.restartWithSeek p.positionNs)
    ∧ onPlaybackDone t = (PlayerState.stopped, t.stop)
    ∧ (t.stop).lastPosition = t.lastPosition := by
  refine ⟨?_, ?_, ?_, rfl, rfl⟩
  · intro hd
    simp only [syncStateWithAudioPlayer]
    rw [if_pos hrun, if_pos htrack, if_neg hprem, if_pos (by simp [hd])]
  · intro hd
    simp only [syncStateWithAudioPlayer]
    rw [if_pos hrun, if_pos htrack, if_neg hprem, if_neg (by simp [hd])]
  · simp only [togglePlayPause]
    rw [if_pos htrack, if_neg hprem]

/-- Witness for C1 amended at the concrete premature-stop component. -/
theorem C1_premature_stop_behaviour_witness :
    syncStateWithAudioPlayer compPremature PlayerState.stopped =
      ({ compPremature with prematureStopDetected := true },
       [UiEmission.debugPrematureLog 30000000000 120000000000])
    ∧ togglePlayPause compPremature PlayerState.stopped =
        ({ compPremature with state := State.loading },
         ToggleCmd.restartWithSeek 30000000000)
    ∧ (trackerFive.stop).lastPosition = trackerFive.lastPosition := by
  have h := C1_premature_stop_behaviour compPremature trackerFive
    (Or.inl rfl) rfl (by decide)
  exact ⟨h.1 rfl, h.2.2.1, h.2.2.2.2⟩

end SCTUI
